import Mathlib

/-!
Shallow embedding of `src/store/data-sources/data-sources.ts`: the Vuex
datasource module created by `createDatasource`, with its state, mutations
(`setCollection`, `setActiveRecord`, `setUpdateMode`, `update`, `lock`,
`unlock`) and actions (`init`, `reposition`, `repositionById`, `prev`,
`next`, `edit`, `add`, `copy`, `save`, `cancel`).

Records (`T extends IOF1DataRecord`) are JavaScript objects; they are
embedded as association lists of field name to atomic value.  JavaScript
state mutation with exceptions is embedded as functions returning the
(possibly partially mutated) state together with an error channel: a
thrown exception does NOT roll back assignments already performed, so
every operation returns the state as left behind, whether or not it threw.
The data adapter is an oracle parameter (`Adapter`); adapter calls are the
only suspension points, so sequential runs of the actions (no interleaved
call aborting the fetch controllers) are embedded as straight-line
functions, and the abort-controller race in `repositionById` is embedded
separately with an explicit fetch-coordinator state (`FullState`).
-/

namespace OF1

/-- Atomic JavaScript values stored in record fields.  `null` and
`undefined` are distinct, as under strict equality in the source. -/
inductive Value where
  | int : Int → Value
  | str : String → Value
  | bool : Bool → Value
  | null : Value
  | undef : Value
deriving DecidableEq

/-- A record: a JavaScript object embedded as an association list of
field name to value, in property insertion order. -/
abbrev DataRecord : Type := List (String × Value)

/-- Property read `r[f]`: the stored value, or `undefined` when the
object has no such own property. -/
def DataRecord.get (r : DataRecord) (f : String) : Value :=
  match r.lookup f with
  | some v => v
  | none => Value.undef

/-- The `hasOwnProperty` check used by the `update` mutation. -/
def DataRecord.hasOwn (r : DataRecord) (f : String) : Bool :=
  (r.lookup f).isSome

/-- Property assignment `r[f] = v`: replaces the value of an existing
property in place, or appends a new property (JavaScript insertion
order). -/
def DataRecord.set (r : DataRecord) (f : String) (v : Value) : DataRecord :=
  match r with
  | [] => [(f, v)]
  | (k, w) :: rest =>
    if k = f then (f, v) :: rest else (k, w) :: DataRecord.set rest f v

/-- The loop in the `add` action: starting from a fresh empty object,
`record[key] = null` for each key of the given record, in order. -/
def DataRecord.clearAll (r : DataRecord) : DataRecord :=
  (r.map Prod.fst).foldl (fun acc k => DataRecord.set acc k Value.null) []

/-- Object spread of a possibly-null record, as used by
`setActiveRecord` and `copy`: spreading `null` yields an empty object. -/
def jsSpread (r : Option DataRecord) : DataRecord :=
  match r with
  | some r0 => r0
  | none => []

/-- The field name `id` required of every `IOF1DataRecord`. -/
def idField : String := "id"

/-- The `UpdateMode` enum of the source. -/
inductive UpdateMode where
  | Update
  | Add
  | Copy
  | Browse
deriving DecidableEq

/-- The errors the module can raise, one constructor per `throw` site
(plus `typeError` for the JavaScript `TypeError` raised by reading `.id`
of `null`, and `adapter` for errors raised by the data adapter
itself). -/
inductive DSError where
  | locked
  | notLocked
  | unexpectedMode : UpdateMode → Option UpdateMode → DSError
  | noActive
  | unknownField
  | noSuchPosition
  | noOriginal
  | typeError
  | adapter : Nat → DSError
deriving DecidableEq

/-- `IDatasourceState<T>`: the per-session Vuex state. -/
structure DSState where
  activeRecord : Option DataRecord
  originalRecord : Option DataRecord
  records : List DataRecord
  updateMode : UpdateMode
  pointer : Int
  locked : Bool
deriving DecidableEq

/-- The initial state installed by `createDatasource`. -/
def initialState : DSState where
  activeRecord := none
  originalRecord := none
  records := []
  updateMode := UpdateMode.Browse
  pointer := -1
  locked := false

/-- `state.records.findIndex((x) => x.id === record.id)` for a non-null
`record`: the index of the first record whose `id` strictly equals the
given value, or `-1`. -/
def findIdxById (records : List DataRecord) (v : Value) : Int :=
  match records.findIdx? (fun x => DataRecord.get x idField == v) with
  | some i => (i : Int)
  | none => -1

/-- `state.records.findIndex((x) => x.id === record.id)` with `record`
possibly `null`.  The callback reads `record.id` once per element, so on
an empty collection no `TypeError` is raised even when `record` is
`null`; on a non-empty collection the first callback invocation throws. -/
def jsFindIndexById (records : List DataRecord) (record : Option DataRecord) :
    Except DSError Int :=
  match record with
  | some r0 => Except.ok (findIdxById records (DataRecord.get r0 idField))
  | none =>
    match records with
    | [] => Except.ok (-1)
    | _ :: _ => Except.error DSError.typeError

/-- Mutation `setCollection`: replaces `records`.  Note that, unlike the
other mutations, it performs no lock check. -/
def setCollection (records : List DataRecord) (s : DSState) : DSState :=
  { s with records := records }

/-- Mutation `setActiveRecord`: assigns `activeRecord`, snapshots
`originalRecord` by spread copy unless `preserveOriginal`, then
recomputes `pointer` by `findIndex` over `records`.  When the payload
record is `null` and `records` is non-empty, the `findIndex` callback
throws a `TypeError` after the first two assignments have already been
performed. -/
def setActiveRecordMut (record : Option DataRecord) (preserveOriginal : Bool)
    (s : DSState) : DSState × Option DSError :=
  if s.locked then (s, some DSError.locked)
  else
    let s1 := { s with activeRecord := record }
    let s2 :=
      if preserveOriginal then s1
      else { s1 with originalRecord := some (jsSpread record) }
    match jsFindIndexById s2.records record with
    | Except.ok pos => ({ s2 with pointer := pos }, none)
    | Except.error e => (s2, some e)

/-- Mutation `setUpdateMode`. -/
def setUpdateModeMut (m : UpdateMode) (s : DSState) : DSState × Option DSError :=
  if s.locked then (s, some DSError.locked)
  else ({ s with updateMode := m }, none)

/-- Mutation `update`: in-place assignment of one field of
`activeRecord`, guarded by the lock, the mode, the presence of an active
record, and `hasOwnProperty`. -/
def updateMut (field : String) (value : Value) (s : DSState) :
    DSState × Option DSError :=
  if s.locked then (s, some DSError.locked)
  else if s.updateMode = UpdateMode.Browse then
    (s, some (DSError.unexpectedMode s.updateMode (some UpdateMode.Browse)))
  else
    match s.activeRecord with
    | none => (s, some DSError.noActive)
    | some a =>
      if DataRecord.hasOwn a field then
        ({ s with activeRecord := some (DataRecord.set a field value) }, none)
      else (s, some DSError.unknownField)

/-- Mutation `lock`. -/
def lockMut (s : DSState) : DSState × Option DSError :=
  if s.locked then (s, some DSError.locked)
  else ({ s with locked := true }, none)

/-- Mutation `unlock`, exactly as written in the source: the guard tests
`state.locked` (not its negation), so it throws the message reading
`Datasource is not locked.` precisely when the datasource IS locked, and
resets an already-false flag otherwise. -/
def unlockMut (s : DSState) : DSState × Option DSError :=
  if s.locked then (s, some DSError.notLocked)
  else ({ s with locked := false }, none)

/-- The data-adapter oracle: a deterministic account of what each of the
four adapter operations would return during the run under study.
`getFirst` is the batch the adapter answers for the initial query,
`getRecord` maps a record id to the fetched detail record or absent,
`create` and `update` either return the persisted record or raise an
adapter error. -/
structure Adapter where
  getFirst : List DataRecord
  getRecord : Value → Option DataRecord
  create : DataRecord → Except DSError DataRecord
  update : DataRecord → DataRecord → Except DSError DataRecord

/-- Action `init`, sequential run (no concurrent action aborts its two
local controllers, so both abort checks pass): fetch the batch, fetch
the first record's detail if the batch is non-empty, then commit
`setCollection`, `setActiveRecord` and `setUpdateMode Browse`. -/
def init (adp : Adapter) (s : DSState) : DSState × Except DSError Unit :=
  if s.locked then (s, Except.error DSError.locked)
  else
    let records := adp.getFirst
    let record : Option DataRecord :=
      match records with
      | [] => none
      | first :: _ => adp.getRecord (DataRecord.get first idField)
    let s1 := setCollection records s
    match setActiveRecordMut record false s1 with
    | (s2, some e) => (s2, Except.error e)
    | (s2, none) =>
      match setUpdateModeMut UpdateMode.Browse s2 with
      | (s3, some e) => (s3, Except.error e)
      | (s3, none) => (s3, Except.ok ())

/-- Action `repositionById`, sequential run: this call's own fetch
controller is the latest and never aborted, so the post-fetch abort
check passes and the fetched record is committed. -/
def repositionById (adp : Adapter) (id : Value) (s : DSState) :
    DSState × Except DSError Bool :=
  if s.locked then (s, Except.error DSError.locked)
  else if s.updateMode ≠ UpdateMode.Browse then
    (s, Except.error (DSError.unexpectedMode s.updateMode (some UpdateMode.Browse)))
  else
    let newRecord := adp.getRecord id
    match setActiveRecordMut newRecord false s with
    | (s1, some e) => (s1, Except.error e)
    | (s1, none) => (s1, Except.ok true)

/-- JavaScript indexing `state.records[pos]`: `undefined` when out of
range or negative. -/
def jsIndex (records : List DataRecord) (pos : Int) : Option DataRecord :=
  if pos < 0 then none else records.get? pos.toNat

/-- Action `reposition`: resolves the position against `records` and
delegates to `repositionById`. -/
def reposition (adp : Adapter) (pos : Int) (s : DSState) :
    DSState × Except DSError Bool :=
  if s.locked then (s, Except.error DSError.locked)
  else if s.updateMode ≠ UpdateMode.Browse then
    (s, Except.error (DSError.unexpectedMode s.updateMode (some UpdateMode.Browse)))
  else
    match jsIndex s.records pos with
    | none => (s, Except.error DSError.noSuchPosition)
    | some record => repositionById adp (DataRecord.get record idField) s

/-- Action `prev`: boundary no-op unless `pointer > 0`. -/
def prev (adp : Adapter) (s : DSState) : DSState × Except DSError Unit :=
  if 0 < s.pointer then
    match reposition adp (s.pointer - 1) s with
    | (s1, Except.ok _) => (s1, Except.ok ())
    | (s1, Except.error e) => (s1, Except.error e)
  else (s, Except.ok ())

/-- Action `next`: boundary no-op unless `pointer + 1 < records.length`. -/
def next (adp : Adapter) (s : DSState) : DSState × Except DSError Unit :=
  if s.pointer + 1 < (s.records.length : Int) then
    match reposition adp (s.pointer + 1) s with
    | (s1, Except.ok _) => (s1, Except.ok ())
    | (s1, Except.error e) => (s1, Except.error e)
  else (s, Except.ok ())

/-- Action `edit`.  The source guards mode and lock with `throw`, but on
the missing-original check it merely CONSTRUCTS the error (`error(...)`
without `throw`), discards it, and proceeds to commit the mode change;
the embedding reproduces that: no branch on `originalRecord`. -/
def edit (s : DSState) : DSState × Except DSError Unit :=
  if s.locked then (s, Except.error DSError.locked)
  else if s.updateMode ≠ UpdateMode.Browse then
    (s, Except.error (DSError.unexpectedMode s.updateMode (some UpdateMode.Browse)))
  else
    match setUpdateModeMut UpdateMode.Update s with
    | (s1, some e) => (s1, Except.error e)
    | (s1, none) => (s1, Except.ok ())

/-- Action `add`: commit mode `Add`, build a record with the active
record's keys all set to `null` (empty object when no active record),
and commit it with `preserveOriginal`. -/
def add (s : DSState) : DSState × Except DSError Unit :=
  if s.locked then (s, Except.error DSError.locked)
  else if s.updateMode ≠ UpdateMode.Browse then
    (s, Except.error (DSError.unexpectedMode s.updateMode (some UpdateMode.Browse)))
  else
    match setUpdateModeMut UpdateMode.Add s with
    | (s1, some e) => (s1, Except.error e)
    | (s1, none) =>
      let record : DataRecord :=
        match s1.activeRecord with
        | some a => DataRecord.clearAll a
        | none => []
      match setActiveRecordMut (some record) true s1 with
      | (s2, some e) => (s2, Except.error e)
      | (s2, none) => (s2, Except.ok ())

/-- Action `copy`: commit mode `Copy`, spread-copy the active record
(empty object when none), and commit it with `preserveOriginal`. -/
def copy (s : DSState) : DSState × Except DSError Unit :=
  if s.locked then (s, Except.error DSError.locked)
  else if s.updateMode ≠ UpdateMode.Browse then
    (s, Except.error (DSError.unexpectedMode s.updateMode (some UpdateMode.Browse)))
  else
    match setUpdateModeMut UpdateMode.Copy s with
    | (s1, some e) => (s1, Except.error e)
    | (s1, none) =>
      let record : DataRecord := jsSpread s1.activeRecord
      match setActiveRecordMut (some record) true s1 with
      | (s2, some e) => (s2, Except.error e)
      | (s2, none) => (s2, Except.ok ())

/-- Action `save`, exactly as the source runs it: guards, then
`commit('lock')`, then the adapter call selected by mode inside a
`try`, then `commit('unlock')` in the `finally` — whose error, when it
throws, replaces any error pending from the `try` body (JavaScript
`finally` semantics).  Only if the `finally` returned normally would the
pending adapter error propagate, or the new record be committed and
`init` re-dispatched. -/
def save (adp : Adapter) (s : DSState) : DSState × Except DSError Unit :=
  if s.locked then (s, Except.error DSError.locked)
  else if s.updateMode = UpdateMode.Browse then
    (s, Except.error (DSError.unexpectedMode s.updateMode none))
  else
    match s.activeRecord with
    | none => (s, Except.error DSError.noActive)
    | some active =>
      match lockMut s with
      | (sl, some e) => (sl, Except.error e)
      | (s1, none) =>
        let tryRes : Except DSError (Option DataRecord) :=
          match s1.updateMode with
          | UpdateMode.Add => (adp.create active).map some
          | UpdateMode.Copy => (adp.create active).map some
          | UpdateMode.Update =>
            match s1.originalRecord with
            | none => Except.error DSError.noOriginal
            | some orig => (adp.update active orig).map some
          | UpdateMode.Browse => Except.ok none
        match unlockMut s1 with
        | (s2, some e2) => (s2, Except.error e2)
        | (s2, none) =>
          match tryRes with
          | Except.error e => (s2, Except.error e)
          | Except.ok newRecord =>
            match setActiveRecordMut newRecord false s2 with
            | (s3, some e3) => (s3, Except.error e3)
            | (s3, none) => init adp s3

/-- Action `cancel`: commit the original record back as the active
record, then commit mode `Browse`. -/
def cancel (s : DSState) : DSState × Except DSError Unit :=
  if s.locked then (s, Except.error DSError.locked)
  else if s.updateMode = UpdateMode.Browse then
    (s, Except.error (DSError.unexpectedMode s.updateMode none))
  else
    match setActiveRecordMut s.originalRecord false s with
    | (s1, some e) => (s1, Except.error e)
    | (s1, none) =>
      match setUpdateModeMut UpdateMode.Browse s1 with
      | (s2, some e) => (s2, Except.error e)
      | (s2, none) => (s2, Except.ok ())

/-! ### The fetch coordinator of `repositionById`, with explicit
abort controllers, for interleaved runs. -/

/-- The closure state of `createDatasource` relevant to single-record
fetches: the current `fetchAbortController` (by numeric identity), the
set of aborted controllers, a fresh-identity counter, and the module
state. -/
structure FullState where
  ds : DSState
  fetchCtrl : Option Nat
  aborted : List Nat
  nextCtrl : Nat
deriving DecidableEq

/-- First half of `repositionById`, up to the `await` of
`adapter.getRecord`: guards, abort of the previous controller, and
installation of a fresh local controller, whose identity is returned. -/
def repoStart (fs : FullState) : FullState × Except DSError Nat :=
  if fs.ds.locked then (fs, Except.error DSError.locked)
  else if fs.ds.updateMode ≠ UpdateMode.Browse then
    (fs, Except.error (DSError.unexpectedMode fs.ds.updateMode (some UpdateMode.Browse)))
  else
    let ab :=
      match fs.fetchCtrl with
      | some c => c :: fs.aborted
      | none => fs.aborted
    let localCtrl := fs.nextCtrl
    ({ fs with aborted := ab, fetchCtrl := some localCtrl,
               nextCtrl := localCtrl + 1 }, Except.ok localCtrl)

/-- Second half of `repositionById`, after its `getRecord` resolved with
`fetched`.  The source tests `fetchAbortController.signal.aborted` — the
abort flag of the CURRENT controller, not of this call's own
`localFetchAbortController` (whose identity, passed here, goes unused
exactly as in the source): when the current controller is un-aborted the
result is committed and `true` returned, else `false`. -/
def repoComplete (localCtrl : Nat) (fetched : Option DataRecord)
    (fs : FullState) : FullState × Except DSError Bool :=
  let _ := localCtrl
  match fs.fetchCtrl with
  | none => (fs, Except.error DSError.typeError)
  | some c =>
    if fs.aborted.contains c then (fs, Except.ok false)
    else
      match setActiveRecordMut fetched false fs.ds with
      | (ds1, some e) => ({ fs with ds := ds1 }, Except.error e)
      | (ds1, none) => ({ fs with ds := ds1 }, Except.ok true)

/-! ### Invariant 1 of the specification. -/

/-- Invariant 1: `pointer == -1` iff `activeRecord` is absent or its id
matches no record of `records`; when a record matches, `pointer` is the
index of the first match.  Both directions are captured by equating
`pointer` with the `findIndex` result, which is `-1` exactly in the
no-match case. -/
def pointerInv (s : DSState) : Bool :=
  match s.activeRecord with
  | none => s.pointer == -1
  | some a => s.pointer == findIdxById s.records (DataRecord.get a idField)

/-! ### Concrete sessions and adapters used by the concrete theorems. -/

/-- A sample record with id 1. -/
def recA : DataRecord := [(idField, Value.int 1), ("name", Value.str "a")]

/-- A sample record with id 2. -/
def recB : DataRecord := [(idField, Value.int 2), ("name", Value.str "b")]

/-- A browsing session positioned on `recA` in a two-record page. -/
def sBrowse : DSState where
  activeRecord := some recA
  originalRecord := some recA
  records := [recA, recB]
  updateMode := UpdateMode.Browse
  pointer := 0
  locked := false

/-- The same session in `Update` mode. -/
def sUpd : DSState := { sBrowse with updateMode := UpdateMode.Update }

/-- The same session with the lock held. -/
def lockedSample : DSState := { sBrowse with locked := true }

/-- The browsing session with no original record. -/
def sNoOrig : DSState := { sBrowse with originalRecord := none }

/-- An adapter whose persistence calls fail and whose record fetches
come back absent. -/
def adpFail : Adapter where
  getFirst := [recA, recB]
  getRecord := fun _ => none
  create := fun _ => Except.error (DSError.adapter 0)
  update := fun _ _ => Except.error (DSError.adapter 0)

/-- An adapter whose persistence calls succeed, echoing the record. -/
def adpOk : Adapter where
  getFirst := [recA, recB]
  getRecord := fun v =>
    if v == Value.int 1 then some recA
    else if v == Value.int 2 then some recB
    else none
  create := fun r => Except.ok r
  update := fun r _ => Except.ok r

/-- An adapter over an empty collection. -/
def adpEmpty : Adapter where
  getFirst := []
  getRecord := fun _ => none
  create := fun r => Except.ok r
  update := fun r _ => Except.ok r

/-- Fetch-coordinator state at rest over the browsing session. -/
def fs0 : FullState where
  ds := sBrowse
  fetchCtrl := none
  aborted := []
  nextCtrl := 0

/-! ### Helper lemmas about the mutations. -/

/-- A successful `setUpdateMode` only replaces the mode. -/
theorem setUpdateModeMut_ok (m : UpdateMode) (s s1 : DSState)
    (h : setUpdateModeMut m s = (s1, none)) : s1 = { s with updateMode := m } := by
  cases hl : s.locked with
  | true => simp [setUpdateModeMut, hl] at h
  | false =>
    simp [setUpdateModeMut, hl] at h
    exact h.symm

/-- A successful `setActiveRecord` commit establishes invariant 1. -/
theorem setActiveRecordMut_ok_inv (record : Option DataRecord) (p : Bool)
    (s s1 : DSState) (h : setActiveRecordMut record p s = (s1, none)) :
    pointerInv s1 = true := by
  cases hl : s.locked with
  | true => simp [setActiveRecordMut, hl] at h
  | false =>
    cases record with
    | some r0 =>
      cases p <;>
      · simp [setActiveRecordMut, hl, jsFindIndexById] at h
        rw [← h]
        simp [pointerInv]
    | none =>
      cases hr : s.records with
      | nil =>
        cases p <;>
        · simp [setActiveRecordMut, hl, hr, jsFindIndexById] at h
          rw [← h]
          simp [pointerInv]
      | cons x xs =>
        cases p <;> simp [setActiveRecordMut, hl, hr, jsFindIndexById] at h

/-- A successful `setActiveRecord` with a non-null record and
`preserveOriginal` unset: the exact resulting state. -/
theorem setActiveRecordMut_some_false (r0 : DataRecord) (s : DSState)
    (hl : s.locked = false) :
    setActiveRecordMut (some r0) false s =
      ({ s with activeRecord := some r0, originalRecord := some r0,
                pointer := findIdxById s.records (DataRecord.get r0 idField) },
       none) := by
  simp [setActiveRecordMut, jsFindIndexById, jsSpread, hl]

/-- A successful `setActiveRecord` with a non-null record and
`preserveOriginal` set: the exact resulting state. -/
theorem setActiveRecordMut_some_true (r0 : DataRecord) (s : DSState)
    (hl : s.locked = false) :
    setActiveRecordMut (some r0) true s =
      ({ s with activeRecord := some r0,
                pointer := findIdxById s.records (DataRecord.get r0 idField) },
       none) := by
  simp [setActiveRecordMut, jsFindIndexById, hl]

/-- The `update` mutation never touches `originalRecord`, `updateMode`,
`records`, `pointer` or `locked`, whether it throws or not. -/
theorem updateMut_frame (f : String) (v : Value) (s : DSState) :
    (updateMut f v s).1.originalRecord = s.originalRecord ∧
    (updateMut f v s).1.updateMode = s.updateMode ∧
    (updateMut f v s).1.locked = s.locked ∧
    (updateMut f v s).1.records = s.records ∧
    (updateMut f v s).1.pointer = s.pointer := by
  simp only [updateMut]
  split
  · simp
  · split
    · simp
    · split
      · simp
      · split <;> simp

instance {ε : Type} {α : Type} [DecidableEq ε] [DecidableEq α] :
    DecidableEq (Except ε α) := fun x y =>
  match x, y with
  | Except.ok a, Except.ok b =>
    if h : a = b then isTrue (by rw [h])
    else isFalse (by intro hh; cases hh; exact h rfl)
  | Except.error a, Except.error b =>
    if h : a = b then isTrue (by rw [h])
    else isFalse (by intro hh; cases hh; exact h rfl)
  | Except.ok _, Except.error _ => isFalse (by intro hh; cases hh)
  | Except.error _, Except.ok _ => isFalse (by intro hh; cases hh)

/-! ### Record-level lemmas. -/

/-- Reading a property of a one-longer record. -/
theorem DataRecord.get_cons (k : String) (w : Value) (rest : DataRecord)
    (g : String) :
    DataRecord.get ((k, w) :: rest) g =
      if g = k then w else DataRecord.get rest g := by
  by_cases hg : g = k
  · have hb : (g == k) = true := beq_iff_eq.mpr hg
    simp [DataRecord.get, List.lookup, hb, hg]
  · have hb : (g == k) = false := by
      rw [beq_eq_false_iff_ne]
      exact hg
    simp [DataRecord.get, List.lookup, hb, hg]

/-- Assigning one field leaves every other field's value unchanged. -/
theorem DataRecord.get_set_ne (r : DataRecord) (f g : String) (v : Value)
    (h : g ≠ f) : DataRecord.get (DataRecord.set r f v) g = DataRecord.get r g := by
  induction r with
  | nil =>
    simp [DataRecord.set, DataRecord.get_cons, h]
  | cons kv rest ih =>
    obtain ⟨k, w⟩ := kv
    by_cases hk : k = f
    · subst hk
      simp [DataRecord.set, DataRecord.get_cons, h]
    · simp only [DataRecord.set, if_neg hk]
      rw [DataRecord.get_cons, DataRecord.get_cons, ih]

/-- Assigning an absent field appends it. -/
theorem DataRecord.set_eq_append (r : DataRecord) (f : String) (v : Value)
    (hf : f ∉ List.map Prod.fst r) : DataRecord.set r f v = r ++ [(f, v)] := by
  induction r with
  | nil => rfl
  | cons kv rest ih =>
    obtain ⟨k, w⟩ := kv
    simp only [List.map_cons, List.mem_cons, not_or] at hf
    simp only [DataRecord.set, if_neg (Ne.symm hf.1)]
    rw [ih hf.2]
    rfl

/-- The clearing loop of `add`, run over distinct keys from a record
with disjoint keys, appends one nulled field per key. -/
theorem clearFold_eq_append (ks : List String) (acc : DataRecord)
    (hnd : ks.Nodup) (hdisj : ∀ k ∈ ks, k ∉ List.map Prod.fst acc) :
    ks.foldl (fun a k => DataRecord.set a k Value.null) acc =
      acc ++ List.map (fun k => (k, Value.null)) ks := by
  induction ks generalizing acc with
  | nil => simp
  | cons k rest ih =>
    simp only [List.foldl_cons]
    rw [DataRecord.set_eq_append acc k Value.null (hdisj k (by simp))]
    rw [List.nodup_cons] at hnd
    rw [ih (acc ++ [(k, Value.null)]) hnd.2 ?_]
    · simp
    · intro k2 hk2
      have h1 : k2 ∉ List.map Prod.fst acc := hdisj k2 (by simp [hk2])
      have h2 : k2 ≠ k := by
        intro hkk
        exact hnd.1 (hkk ▸ hk2)
      simp [h1, h2]

/-- On a record with distinct field names (as every JavaScript object
has), the clearing loop of `add` is the field-wise map to `null`. -/
theorem clearAll_eq_map (a : DataRecord)
    (hnd : (List.map Prod.fst a).Nodup) :
    DataRecord.clearAll a = List.map (fun kv => (kv.1, Value.null)) a := by
  unfold DataRecord.clearAll
  rw [clearFold_eq_append (List.map Prod.fst a) [] hnd (by intro k _; simp)]
  simp [List.map_map]

/-! ### Frame lemmas and the field-update sequence. -/

/-- A caller-side sequence of `update(field, value)` commits: each step
keeps the state the mutation left behind, whether or not it threw (a
throwing commit performs no assignment). -/
def applyUpdates (us : List (String × Value)) (s : DSState) : DSState :=
  us.foldl (fun acc fv => (updateMut fv.1 fv.2 acc).1) s

/-- A sequence of field updates never touches `originalRecord`,
`updateMode`, `locked` or `records`. -/
theorem applyUpdates_frame (us : List (String × Value)) (s : DSState) :
    (applyUpdates us s).originalRecord = s.originalRecord ∧
    (applyUpdates us s).updateMode = s.updateMode ∧
    (applyUpdates us s).locked = s.locked ∧
    (applyUpdates us s).records = s.records := by
  induction us generalizing s with
  | nil => simp [applyUpdates]
  | cons fv rest ih =>
    have h := updateMut_frame fv.1 fv.2 s
    have h2 := ih ((updateMut fv.1 fv.2 s).1)
    simp only [applyUpdates, List.foldl_cons] at h2 ⊢
    exact ⟨h2.1.trans h.1, h2.2.1.trans h.2.1, h2.2.2.1.trans h.2.2.1,
      h2.2.2.2.trans h.2.2.2.1⟩

/-! ### Invariant 1 across each operation. -/

/-- Mode changes do not affect invariant 1. -/
theorem pointerInv_setUpdateMode (m : UpdateMode) (s : DSState) :
    pointerInv { s with updateMode := m } = pointerInv s := rfl

/-- A completed `init` establishes invariant 1. -/
theorem init_ok_inv (adp : Adapter) (s s1 : DSState) (x : Unit)
    (h : init adp s = (s1, Except.ok x)) : pointerInv s1 = true := by
  cases hl : s.locked with
  | true => simp [init, hl] at h
  | false =>
    simp only [init, hl, Bool.false_eq_true, if_false] at h
    split at h
    next s2 e heq => simp at h
    next s2 heq =>
      split at h
      next s3 e heq2 => simp at h
      next s3 heq2 =>
        simp only [Prod.mk.injEq] at h
        rw [← h.1, setUpdateModeMut_ok _ _ _ heq2, pointerInv_setUpdateMode]
        exact setActiveRecordMut_ok_inv _ _ _ _ heq

/-- A completed `repositionById` establishes invariant 1. -/
theorem repositionById_ok_inv (adp : Adapter) (i : Value) (s s1 : DSState)
    (b : Bool) (h : repositionById adp i s = (s1, Except.ok b)) :
    pointerInv s1 = true := by
  cases hl : s.locked with
  | true => simp [repositionById, hl] at h
  | false =>
    by_cases hm : s.updateMode = UpdateMode.Browse
    · simp only [repositionById, hl, hm, Bool.false_eq_true, if_false, ne_eq,
        not_true_eq_false, if_neg, if_pos] at h
      split at h
      next s2 e heq => simp at h
      next s2 heq =>
        simp only [Prod.mk.injEq] at h
        rw [← h.1]
        exact setActiveRecordMut_ok_inv _ _ _ _ heq
    · simp [repositionById, hl, hm] at h

/-- A completed `reposition` establishes invariant 1. -/
theorem reposition_ok_inv (adp : Adapter) (p : Int) (s s1 : DSState)
    (b : Bool) (h : reposition adp p s = (s1, Except.ok b)) :
    pointerInv s1 = true := by
  cases hl : s.locked with
  | true => simp [reposition, hl] at h
  | false =>
    by_cases hm : s.updateMode = UpdateMode.Browse
    · simp only [reposition, hl, hm, Bool.false_eq_true, if_false, ne_eq,
        not_true_eq_false, if_neg, if_pos] at h
      split at h
      next heq => simp at h
      next r0 heq => exact repositionById_ok_inv _ _ _ _ _ h
    · simp [reposition, hl, hm] at h

/-- A completed `prev` preserves invariant 1. -/
theorem prev_ok_inv (adp : Adapter) (s s1 : DSState) (x : Unit)
    (h0 : pointerInv s = true) (h : prev adp s = (s1, Except.ok x)) :
    pointerInv s1 = true := by
  by_cases hp : 0 < s.pointer
  · simp only [prev, hp, if_true, if_pos] at h
    split at h
    next s2 b heq =>
      simp only [Prod.mk.injEq] at h
      rw [← h.1]
      exact reposition_ok_inv _ _ _ _ _ heq
    next s2 e heq => simp at h
  · simp only [prev, hp, if_neg, if_false] at h
    simp only [Prod.mk.injEq] at h
    rw [← h.1]
    exact h0

/-- A completed `next` preserves invariant 1. -/
theorem next_ok_inv (adp : Adapter) (s s1 : DSState) (x : Unit)
    (h0 : pointerInv s = true) (h : next adp s = (s1, Except.ok x)) :
    pointerInv s1 = true := by
  by_cases hp : s.pointer + 1 < (s.records.length : Int)
  · simp only [next, hp, if_true, if_pos] at h
    split at h
    next s2 b heq =>
      simp only [Prod.mk.injEq] at h
      rw [← h.1]
      exact reposition_ok_inv _ _ _ _ _ heq
    next s2 e heq => simp at h
  · simp only [next, hp, if_neg, if_false] at h
    simp only [Prod.mk.injEq] at h
    rw [← h.1]
    exact h0

/-- A completed `edit` preserves invariant 1. -/
theorem edit_ok_inv (s s1 : DSState) (x : Unit)
    (h0 : pointerInv s = true) (h : edit s = (s1, Except.ok x)) :
    pointerInv s1 = true := by
  cases hl : s.locked with
  | true => simp [edit, hl] at h
  | false =>
    by_cases hm : s.updateMode = UpdateMode.Browse
    · simp only [edit, hl, hm, Bool.false_eq_true, if_false, ne_eq,
        not_true_eq_false, if_neg, if_pos] at h
      split at h
      next s2 e heq => simp at h
      next s2 heq =>
        simp only [Prod.mk.injEq] at h
        rw [← h.1, setUpdateModeMut_ok _ _ _ heq, pointerInv_setUpdateMode]
        exact h0
    · simp [edit, hl, hm] at h

/-- A completed `add` establishes invariant 1. -/
theorem add_ok_inv (s s1 : DSState) (x : Unit)
    (h : add s = (s1, Except.ok x)) : pointerInv s1 = true := by
  cases hl : s.locked with
  | true => simp [add, hl] at h
  | false =>
    by_cases hm : s.updateMode = UpdateMode.Browse
    · simp only [add, hl, hm, Bool.false_eq_true, if_false, ne_eq,
        not_true_eq_false, if_neg, if_pos] at h
      split at h
      next s2 e heq => simp at h
      next s2 heq =>
        split at h
        next s3 e heq2 => simp at h
        next s3 heq2 =>
          simp only [Prod.mk.injEq] at h
          rw [← h.1]
          exact setActiveRecordMut_ok_inv _ _ _ _ heq2
    · simp [add, hl, hm] at h

/-- A completed `copy` establishes invariant 1. -/
theorem copy_ok_inv (s s1 : DSState) (x : Unit)
    (h : copy s = (s1, Except.ok x)) : pointerInv s1 = true := by
  cases hl : s.locked with
  | true => simp [copy, hl] at h
  | false =>
    by_cases hm : s.updateMode = UpdateMode.Browse
    · simp only [copy, hl, hm, Bool.false_eq_true, if_false, ne_eq,
        not_true_eq_false, if_neg, if_pos] at h
      split at h
      next s2 e heq => simp at h
      next s2 heq =>
        split at h
        next s3 e heq2 => simp at h
        next s3 heq2 =>
          simp only [Prod.mk.injEq] at h
          rw [← h.1]
          exact setActiveRecordMut_ok_inv _ _ _ _ heq2
    · simp [copy, hl, hm] at h

/-- A completed `cancel` establishes invariant 1. -/
theorem cancel_ok_inv (s s1 : DSState) (x : Unit)
    (h : cancel s = (s1, Except.ok x)) : pointerInv s1 = true := by
  cases hl : s.locked with
  | true => simp [cancel, hl] at h
  | false =>
    by_cases hm : s.updateMode = UpdateMode.Browse
    · simp [cancel, hl, hm] at h
    · simp only [cancel, hl, hm, Bool.false_eq_true, if_false, if_neg] at h
      split at h
      next s2 e heq => simp at h
      next s2 heq =>
        split at h
        next s3 e heq2 => simp at h
        next s3 heq2 =>
          simp only [Prod.mk.injEq] at h
          rw [← h.1, setUpdateModeMut_ok _ _ _ heq2, pointerInv_setUpdateMode]
          exact setActiveRecordMut_ok_inv _ _ _ _ heq

/-- `save` never completes: once the lock is taken, the `finally`
block's `unlock` throws on the held lock, and every earlier path throws
its own guard error. -/
theorem save_never_ok (adp : Adapter) (s s1 : DSState) (x : Unit)
    (h : save adp s = (s1, Except.ok x)) : False := by
  cases hl : s.locked with
  | true => simp [save, hl] at h
  | false =>
    by_cases hm : s.updateMode = UpdateMode.Browse
    · simp [save, hl, hm] at h
    · rcases ha : s.activeRecord with _ | a
      · simp [save, hl, hm, ha] at h
      · simp [save, hl, hm, ha, lockMut, unlockMut] at h


/-- A completed field update on a field other than `id` preserves
invariant 1. -/
theorem updateMut_ne_id_inv (f : String) (v : Value) (s s1 : DSState)
    (hf : f ≠ idField) (h0 : pointerInv s = true)
    (h : updateMut f v s = (s1, none)) : pointerInv s1 = true := by
  cases hl : s.locked with
  | true => simp [updateMut, hl] at h
  | false =>
    by_cases hm : s.updateMode = UpdateMode.Browse
    · simp [updateMut, hl, hm] at h
    · rcases ha : s.activeRecord with _ | a
      · simp [updateMut, hl, hm, ha] at h
      · by_cases hown : DataRecord.hasOwn a f
        · simp only [updateMut, hl, hm, ha, hown, Bool.false_eq_true, if_false,
            if_neg, if_pos, if_true, Prod.mk.injEq] at h
          rw [← h.1]
          simp only [pointerInv, ha] at h0
          simp only [pointerInv]
          rw [DataRecord.get_set_ne a f idField v (Ne.symm hf)]
          exact h0
        · simp [updateMut, hl, hm, ha, hown] at h

/-- C1: evaluation of the superseded-fetch race on the code as written.
`repositionById(A)` installs controller 0, `repositionById(B)` aborts it
and installs controller 1; B's fetch resolves first and commits `recB`;
then A's stale fetch resolves, and because the source consults
`fetchAbortController.signal.aborted` — the abort flag of the LATEST
controller (B's, un-aborted) — instead of its own local controller's,
A's completion also commits: it overwrites `activeRecord` with `recA`
and returns `true`.  The claim's asserted outcome (A discarded, A
returns false, final active id is B) therefore fails on the code. -/
theorem C1_stale_fetch_committed :
    (repoStart fs0).2 = Except.ok 0 ∧
    (repoStart (repoStart fs0).1).2 = Except.ok 1 ∧
    (repoStart (repoStart fs0).1).1.aborted = [0] ∧
    (repoComplete 1 (some recB) (repoStart (repoStart fs0).1).1).2 =
      Except.ok true ∧
    (repoComplete 1 (some recB) (repoStart (repoStart fs0).1).1).1.ds.activeRecord =
      some recB ∧
    (repoComplete 0 (some recA)
        (repoComplete 1 (some recB) (repoStart (repoStart fs0).1).1).1).2 =
      Except.ok true ∧
    (repoComplete 0 (some recA)
        (repoComplete 1 (some recB) (repoStart (repoStart fs0).1).1).1).1.ds.activeRecord =
      some recA := by
  decide

/-- C2: evaluation of `save` with a failing adapter on the code as
written.  In `Update` mode with active and original records present and
an adapter whose `update` raises an error, `save` does NOT release the
lock and does NOT propagate the adapter error: the `finally` block's
`commit('unlock')` hits the inverted guard of `unlock`, which throws
while the lock is held, so the run ends with `locked = true` and the
unlock error replacing the adapter's (all other fields unchanged). -/
theorem C2_save_adapter_failure_behavior :
    adpFail.update recA recA = Except.error (DSError.adapter 0) ∧
    sUpd.updateMode = UpdateMode.Update ∧ sUpd.locked = false ∧
    sUpd.activeRecord = some recA ∧ sUpd.originalRecord = some recA ∧
    save adpFail sUpd =
      ({ sUpd with locked := true }, Except.error DSError.notLocked) := by
  decide

/-- C3: evaluation of `save` with a succeeding adapter on the code as
written.  Even when `adapter.update` succeeds, the `finally` block's
`commit('unlock')` throws (inverted guard), so `save` never commits the
returned record, never re-runs `init`, leaves the lock held, and ends in
error rather than completing. -/
theorem C3_save_success_behavior :
    adpOk.update recA recA = Except.ok recA ∧
    sUpd.updateMode = UpdateMode.Update ∧ sUpd.locked = false ∧
    sUpd.activeRecord = some recA ∧ sUpd.originalRecord = some recA ∧
    save adpOk sUpd =
      ({ sUpd with locked := true }, Except.error DSError.notLocked) := by
  decide

/-- C6: evaluation of `unlock` (and `lock`) on the code as written.  The
guard of `unlock` is inverted: called with `locked = true` it throws the
not-locked error and leaves the lock held; called with `locked = false`
it succeeds as a no-op.  (`lock` when already locked does fail, as the
claim says.) -/
theorem C6_unlock_inverted :
    lockedSample.locked = true ∧ sBrowse.locked = false ∧
    unlockMut lockedSample = (lockedSample, some DSError.notLocked) ∧
    unlockMut sBrowse = (sBrowse, none) ∧
    lockMut lockedSample = (lockedSample, some DSError.locked) := by
  decide

/-- C8: evaluation of `edit` with `originalRecord` absent on the code as
written.  The source constructs the missing-original error without
throwing it, so `edit` succeeds and sets the mode to `Update` instead of
failing and leaving the mode unchanged. -/
theorem C8_edit_missing_original :
    sNoOrig.originalRecord = none ∧ sNoOrig.updateMode = UpdateMode.Browse ∧
    sNoOrig.locked = false ∧
    edit sNoOrig = ({ sNoOrig with updateMode := UpdateMode.Update }, Except.ok ()) := by
  decide

/-- C4 counterexample: the claim quantifies over every completed
operation including the field `update`, but a completed
`update('id', 99)` in `Update` mode rewrites the active record's id
without recomputing `pointer`: afterwards no record of `records` carries
the active id, yet `pointer` is still `0`, so invariant 1 is false. -/
theorem C4_counterexample :
    pointerInv sUpd = true ∧
    updateMut idField (Value.int 99) sUpd =
      ({ sUpd with
          activeRecord := some [(idField, Value.int 99), ("name", Value.str "a")] },
       none) ∧
    pointerInv (updateMut idField (Value.int 99) sUpd).1 = false := by
  decide

/-- C5 counterexample: the claim says no commit path can change
`records` while the lock is held, but the `setCollection` mutation
performs no lock check at all: on a locked session it replaces `records`
and raises nothing (its type has no error outcome). -/
theorem C5_counterexample :
    lockedSample.locked = true ∧
    setCollection [recB] lockedSample = { lockedSample with records := [recB] } ∧
    (setCollection [recB] lockedSample).records ≠ lockedSample.records := by
  decide

/-- C7 counterexample: on a browsing, unlocked session with an active
record at pointer 0, a completed `add()` does NOT leave the stored
`pointer` value unchanged: `setActiveRecord` always recomputes it by
`findIndex` on the cleared record's `null` id, yielding `-1`. -/
theorem C7_counterexample :
    sBrowse.updateMode = UpdateMode.Browse ∧ sBrowse.locked = false ∧
    sBrowse.activeRecord = some recA ∧ sBrowse.pointer = 0 ∧
    (add sBrowse).2 = Except.ok () ∧ (add sBrowse).1.pointer = -1 := by
  decide

/-- C10 counterexample: `init` against an adapter whose batch is empty
commits `setActiveRecord` with a `null` record over an EMPTY `records`
collection, so the `findIndex` callback never runs and no `TypeError` is
raised: the operation completes, leaving `activeRecord` absent,
`pointer = -1` and `originalRecord` an empty object — contradicting the
claim that each such commit throws. -/
theorem C10_counterexample :
    adpEmpty.getFirst = [] ∧
    init adpEmpty initialState =
      ({ initialState with originalRecord := some ([] : DataRecord) },
       Except.ok ()) := by
  decide

/-- C4 amended: after every completed operation EXCEPT a field update
that assigns the `id` field, invariant 1 holds — `pointer == -1` iff
`activeRecord` is absent or its id matches no loaded record, and
otherwise `pointer` is the index of the (first) matching record.  The
operations committing through `setActiveRecord` (init, reposition,
repositionById, add, copy, cancel) establish it outright; `edit`,
boundary `prev`/`next`, and `update` on a non-id field preserve it; a
completed `save` is vacuous since `save` always throws in its `finally`
block.  (`update('id', v)` is the sole exception, per the
counterexample.) -/
theorem C4_amended_pointer_invariant (s : DSState) (h0 : pointerInv s = true) :
    (∀ adp s1 x, init adp s = (s1, Except.ok x) → pointerInv s1 = true) ∧
    (∀ adp i s1 b, repositionById adp i s = (s1, Except.ok b) →
      pointerInv s1 = true) ∧
    (∀ adp p s1 b, reposition adp p s = (s1, Except.ok b) →
      pointerInv s1 = true) ∧
    (∀ adp s1 x, prev adp s = (s1, Except.ok x) → pointerInv s1 = true) ∧
    (∀ adp s1 x, next adp s = (s1, Except.ok x) → pointerInv s1 = true) ∧
    (∀ s1 x, edit s = (s1, Except.ok x) → pointerInv s1 = true) ∧
    (∀ s1 x, add s = (s1, Except.ok x) → pointerInv s1 = true) ∧
    (∀ s1 x, copy s = (s1, Except.ok x) → pointerInv s1 = true) ∧
    (∀ adp s1 x, save adp s = (s1, Except.ok x) → pointerInv s1 = true) ∧
    (∀ s1 x, cancel s = (s1, Except.ok x) → pointerInv s1 = true) ∧
    (∀ f v s1, f ≠ idField → updateMut f v s = (s1, none) →
      pointerInv s1 = true) := by
  refine ⟨?_, ?_, ?_, ?_, ?_, ?_, ?_, ?_, ?_, ?_, ?_⟩
  · intro adp s1 x h
    exact init_ok_inv adp s s1 x h
  · intro adp i s1 b h
    exact repositionById_ok_inv adp i s s1 b h
  · intro adp p s1 b h
    exact reposition_ok_inv adp p s s1 b h
  · intro adp s1 x h
    exact prev_ok_inv adp s s1 x h0 h
  · intro adp s1 x h
    exact next_ok_inv adp s s1 x h0 h
  · intro s1 x h
    exact edit_ok_inv s s1 x h0 h
  · intro s1 x h
    exact add_ok_inv s s1 x h
  · intro s1 x h
    exact copy_ok_inv s s1 x h
  · intro adp s1 x h
    exact (save_never_ok adp s s1 x h).elim
  · intro s1 x h
    exact cancel_ok_inv s s1 x h
  · intro f v s1 hf h
    exact updateMut_ne_id_inv f v s s1 hf h0 h

/-- Witness for C4 amended: invariant 1 holds on the sample browsing
session and, by the theorem's `add` conjunct, keeps holding after a
completed `add()`. -/
theorem C4_amended_pointer_invariant_witness :
    pointerInv sBrowse = true ∧ pointerInv (add sBrowse).1 = true := by
  refine ⟨by decide, ?_⟩
  exact (C4_amended_pointer_invariant sBrowse (by decide)).2.2.2.2.2.2.1
    (add sBrowse).1 () rfl

/-- C5 amended: while `locked == true`, every commit-style mutation
except `setCollection` (namely `setActiveRecord`, `setUpdateMode`, the
field `update`, and `lock`) and every action (`init`, `repositionById`,
`reposition`, `edit`, `add`, `copy`, `save`, `cancel`) fails with the
locked error and leaves the state unchanged, while `prev`/`next` fail
with the locked error except at the collection boundary, where they
complete as no-ops; `setCollection` alone carries no lock check (see the
counterexample). -/
theorem C5_amended_locked_rejects (s : DSState) (h : s.locked = true) :
    (∀ r p, setActiveRecordMut r p s = (s, some DSError.locked)) ∧
    (∀ m, setUpdateModeMut m s = (s, some DSError.locked)) ∧
    (∀ f v, updateMut f v s = (s, some DSError.locked)) ∧
    lockMut s = (s, some DSError.locked) ∧
    (∀ adp, init adp s = (s, Except.error DSError.locked)) ∧
    (∀ adp i, repositionById adp i s = (s, Except.error DSError.locked)) ∧
    (∀ adp p, reposition adp p s = (s, Except.error DSError.locked)) ∧
    edit s = (s, Except.error DSError.locked) ∧
    add s = (s, Except.error DSError.locked) ∧
    copy s = (s, Except.error DSError.locked) ∧
    (∀ adp, save adp s = (s, Except.error DSError.locked)) ∧
    cancel s = (s, Except.error DSError.locked) ∧
    (∀ adp, prev adp s =
      (s, if 0 < s.pointer then Except.error DSError.locked
          else Except.ok ())) ∧
    (∀ adp, next adp s =
      (s, if s.pointer + 1 < (s.records.length : Int) then
            Except.error DSError.locked
          else Except.ok ())) := by
  refine ⟨fun r p => by simp [setActiveRecordMut, h],
    fun m => by simp [setUpdateModeMut, h],
    fun f v => by simp [updateMut, h],
    by simp [lockMut, h],
    fun adp => by simp [init, h],
    fun adp i => by simp [repositionById, h],
    fun adp p => by simp [reposition, h],
    by simp [edit, h],
    by simp [add, h],
    by simp [copy, h],
    fun adp => by simp [save, h],
    by simp [cancel, h],
    fun adp => ?_, fun adp => ?_⟩
  · by_cases hp : 0 < s.pointer <;> simp [prev, reposition, hp, h]
  · by_cases hp : s.pointer + 1 < (s.records.length : Int) <;>
      simp [next, reposition, hp, h]

/-- Witness for C5 amended: on the locked sample session, `edit` fails
with the locked error and leaves the state unchanged. -/
theorem C5_amended_locked_rejects_witness :
    lockedSample.locked = true ∧
    edit lockedSample = (lockedSample, Except.error DSError.locked) := by
  refine ⟨by decide, ?_⟩
  exact (C5_amended_locked_rejects lockedSample (by decide)).2.2.2.2.2.2.2.1

/-- C7 amended: in Browse mode, unlocked, with an active record whose
field names are distinct, `add()` succeeds, sets the mode to `Add`,
installs an active record with the same field set and every value
cleared to `null`, preserves `originalRecord` and `records` — and
RECOMPUTES `pointer` by `findIndex` against the cleared record's `null`
id (rather than leaving its stored value unchanged, per the
counterexample). -/
theorem C7_amended_add (s : DSState) (a : DataRecord)
    (hm : s.updateMode = UpdateMode.Browse) (hl : s.locked = false)
    (ha : s.activeRecord = some a) (hnd : (List.map Prod.fst a).Nodup) :
    add s =
      ({ s with updateMode := UpdateMode.Add,
                activeRecord :=
                  some (List.map (fun kv => (kv.1, Value.null)) a),
                pointer := findIdxById s.records
                  (DataRecord.get
                    (List.map (fun kv => (kv.1, Value.null)) a) idField) },
       Except.ok ()) := by
  have hc := clearAll_eq_map a hnd
  simp [add, setUpdateModeMut, setActiveRecordMut, jsFindIndexById, hl, hm,
    ha, hc]

/-- Witness for C7 amended: evaluated on the sample browsing session,
`add` clears `recA` field-wise and repositions the pointer to `-1`. -/
theorem C7_amended_add_witness :
    add sBrowse =
      ({ sBrowse with updateMode := UpdateMode.Add,
                      activeRecord :=
                        some [(idField, Value.null), ("name", Value.null)],
                      pointer := -1 },
       Except.ok ()) := by
  have h := C7_amended_add sBrowse recA rfl rfl rfl (by decide)
  rw [h]
  decide

/-- C9: on an unlocked browsing session with an original record,
`edit()` succeeds, and after any sequence of field-update commits,
`cancel()` succeeds, restores `activeRecord` (and the snapshot
`originalRecord`) to the pre-edit original record, and returns the mode
to `Browse`.  `edit`, `update` and `cancel` take no adapter argument in
the embedding: none of them performs an adapter call. -/
theorem C9_edit_cancel_roundtrip (s : DSState) (o : DataRecord)
    (us : List (String × Value)) (hl : s.locked = false)
    (hm : s.updateMode = UpdateMode.Browse) (ho : s.originalRecord = some o) :
    (edit s).2 = Except.ok () ∧
    (cancel (applyUpdates us (edit s).1)).2 = Except.ok () ∧
    (cancel (applyUpdates us (edit s).1)).1.activeRecord = some o ∧
    (cancel (applyUpdates us (edit s).1)).1.originalRecord = some o ∧
    (cancel (applyUpdates us (edit s).1)).1.updateMode = UpdateMode.Browse := by
  have hedit : edit s = ({ s with updateMode := UpdateMode.Update }, Except.ok ()) := by
    simp [edit, setUpdateModeMut, hl, hm]
  have hf := applyUpdates_frame us (edit s).1
  have h1 : (edit s).1 = { s with updateMode := UpdateMode.Update } := by
    rw [hedit]
  have hl2 : (applyUpdates us (edit s).1).locked = false := by
    rw [hf.2.2.1, h1]
    exact hl
  have hm2 : (applyUpdates us (edit s).1).updateMode = UpdateMode.Update := by
    rw [hf.2.1, h1]
  have ho2 : (applyUpdates us (edit s).1).originalRecord = some o := by
    rw [hf.1, h1]
    exact ho
  have hcan : cancel (applyUpdates us (edit s).1) =
      ({ applyUpdates us (edit s).1 with
          activeRecord := some o, originalRecord := some o,
          pointer := findIdxById (applyUpdates us (edit s).1).records
            (DataRecord.get o idField),
          updateMode := UpdateMode.Browse },
       Except.ok ()) := by
    simp [cancel, setActiveRecordMut, jsFindIndexById, jsSpread,
      setUpdateModeMut, hl2, hm2, ho2]
  refine ⟨by rw [hedit], ?_, ?_, ?_, ?_⟩ <;> rw [hcan]

/-- Witness for C9: a concrete run — edit, overwrite the `name` field,
cancel — restores the sample session's active record to `recA`. -/
theorem C9_edit_cancel_roundtrip_witness :
    sBrowse.originalRecord = some recA ∧
    (cancel (applyUpdates [("name", Value.str "x")] (edit sBrowse).1)).1.activeRecord =
      some recA := by
  refine ⟨rfl, ?_⟩
  exact (C9_edit_cancel_roundtrip sBrowse recA [("name", Value.str "x")]
    rfl rfl rfl).2.2.1

/-- C10 amended: committing an absent record through `setActiveRecord`
first assigns `activeRecord := null` and `originalRecord` an empty
object; then, when `records` is NON-EMPTY, the `findIndex` callback
raises a `TypeError` on `record.id`, leaving that partial (non-atomic)
mutation behind — as the claim says for `repositionById` with an absent
fetch and for `cancel` without an original.  When `records` is EMPTY,
however, no callback runs and the commit completes, leaving the session
with `activeRecord` absent and `pointer == -1` (the init-on-empty-batch
case of the counterexample). -/
theorem C10_amended_null_commit (s : DSState) (hl : s.locked = false) :
    (s.records ≠ [] →
      setActiveRecordMut none false s =
        ({ s with activeRecord := none, originalRecord := some [] },
         some DSError.typeError)) ∧
    (s.records = [] →
      setActiveRecordMut none false s =
        ({ s with activeRecord := none, originalRecord := some [],
                  pointer := -1 },
         none)) ∧
    (∀ adp idv, adp.getRecord idv = none → s.updateMode = UpdateMode.Browse →
      s.records ≠ [] →
      repositionById adp idv s =
        ({ s with activeRecord := none, originalRecord := some [] },
         Except.error DSError.typeError)) ∧
    (s.originalRecord = none → s.updateMode ≠ UpdateMode.Browse →
      s.records ≠ [] →
      cancel s =
        ({ s with activeRecord := none, originalRecord := some [] },
         Except.error DSError.typeError)) := by
  refine ⟨?_, ?_, ?_, ?_⟩
  · intro hr
    cases hrec : s.records with
    | nil => exact absurd hrec hr
    | cons x xs =>
      simp [setActiveRecordMut, jsFindIndexById, jsSpread, hl, hrec]
  · intro hr
    simp [setActiveRecordMut, jsFindIndexById, jsSpread, hl, hr]
  · intro adp idv hget hm hr
    cases hrec : s.records with
    | nil => exact absurd hrec hr
    | cons x xs =>
      simp [repositionById, setActiveRecordMut, jsFindIndexById, jsSpread,
        hl, hm, hget, hrec]
  · intro ho hm hr
    cases hrec : s.records with
    | nil => exact absurd hrec hr
    | cons x xs =>
      simp [cancel, setActiveRecordMut, jsFindIndexById, jsSpread,
        hl, hm, ho, hrec]

/-- Witness for C10 amended: on the sample browsing session (non-empty
page), the null commit throws the `TypeError` after the partial
mutation. -/
theorem C10_amended_null_commit_witness :
    sBrowse.locked = false ∧ sBrowse.records ≠ [] ∧
    setActiveRecordMut none false sBrowse =
      ({ sBrowse with activeRecord := none, originalRecord := some [] },
       some DSError.typeError) := by
  refine ⟨rfl, by decide, ?_⟩
  exact (C10_amended_null_commit sBrowse rfl).1 (by decide)

end OF1
